import Mathlib

/-!
# Verification of the globe-news-scraper news-harvest pipeline

A shallow embedding, in Lean 4, of the core of the `the-globe-v2/news-scraper`
repository: the telemetry counters (`monitoring/request_tracker.py`,
`monitoring/article_counter.py`), the fetch fallback chain
(`data_providers/news_pipeline/web_content_fetcher.py`), the content
validator (`data_providers/news_pipeline/content_validator.py`), the article
builder (`data_providers/news_pipeline/article_builder.py`), the pipeline
statistics (`data_providers/news_pipeline/__init__.py`) and the bulk insert
logic (`database/mongo_handler.py`).

Python code is modelled as follows: mutable per-call state becomes explicit
state passing, exceptions become `Except` values, external I/O (HTTP
responses, the headless browser, the MongoDB driver) is a parameter that
enumerates the outcomes the code branches on, and Python strings are
`List Char`.
-/

namespace GlobeScraper

/-! ## RequestTracker (`monitoring/request_tracker.py`)

`RequestTracker._requests` is a `defaultdict` mapping a method name to a dict
from status code to count.  A Python dict is embedded as an association list
with unique keys in insertion order; a fresh key is appended at the end. -/

/-- The state of a `RequestTracker`: for each method, the status-code counts. -/
abbrev Tracker := List (String × List (Int × Nat))

/-- Increment the count for `status` in a single method's status dict, as in
`track_request`: `+= 1` when present, `= 1` (appended) when absent. -/
def bumpStatus (stats : List (Int × Nat)) (status : Int) : List (Int × Nat) :=
  match stats with
  | [] => [(status, 1)]
  | (s, n) :: rest =>
    if s = status then (s, n + 1) :: rest else (s, n) :: bumpStatus rest status

/-- Embeds `RequestTracker.track_request(method, status_code)`.  The `defaultdict`
creates an empty status dict for a method not seen before. -/
def trackRequest (t : Tracker) (method : String) (status : Int) : Tracker :=
  match t with
  | [] => [(method, bumpStatus [] status)]
  | (m, stats) :: rest =>
    if m = method then (m, bumpStatus stats status) :: rest
    else (m, stats) :: trackRequest rest method status

/-- The tracker state reached from a fresh `RequestTracker()` by a sequence of
`track_request` calls (the reachable states). -/
def trackerFromEvents (events : List (String × Int)) : Tracker :=
  events.foldl (fun t e => trackRequest t e.1 e.2) []

/-- Python dict lookup `stats[status]` as an option. -/
def lookupStatus (stats : List (Int × Nat)) (status : Int) : Option Nat :=
  match stats with
  | [] => none
  | (s, n) :: rest => if s = status then some n else lookupStatus rest status

/-- Embeds `sum(count for status_code, count in stats.items() if status_code != 200)`,
the failure total of one method in `get_total_requests`. -/
def nonSuccessSum (stats : List (Int × Nat)) : Nat :=
  match stats with
  | [] => 0
  | (s, n) :: rest => (if s ≠ 200 then n else 0) + nonSuccessSum rest

/-- The evaluation of the generator `sum(stats[200] for stats in
self._requests.values())`: collect `stats[200]` method by method, raising
`KeyError` at the first method with no status-200 entry. -/
def successCounts (t : Tracker) : Except String (List Nat) :=
  match t with
  | [] => .ok []
  | ms :: rest =>
    match lookupStatus ms.2 200 with
    | some n =>
      match successCounts rest with
      | .ok ns => .ok (n :: ns)
      | .error e => .error e
    | none => .error "KeyError: 200"

/-- Embeds `RequestTracker.get_total_requests`.  `total_success` evaluates
`stats[200]` for every method and raises `KeyError` when a method has no
status-200 entry; `total_failure` sums the non-200 counts. -/
def getTotalRequests (t : Tracker) : Except String (Nat × Nat) :=
  match successCounts t with
  | .error e => .error e
  | .ok succs =>
    let fails := t.map (fun ms => nonSuccessSum ms.2)
    .ok (succs.sum, fails.sum)

/-- Reference count of success events in a raw event list. -/
def eventSuccesses (events : List (String × Int)) : Nat :=
  events.countP (fun e => e.2 = 200)

/-- Reference count of failure events in a raw event list. -/
def eventFailures (events : List (String × Int)) : Nat :=
  events.countP (fun e => e.2 ≠ 200)

/-- Sum over all methods of the tracked status-200 count (0 when absent). -/
def trackerSuccesses (t : Tracker) : Nat :=
  (t.map (fun ms => (lookupStatus ms.2 200).getD 0)).sum

/-- Sum over all methods of the tracked non-200 counts. -/
def trackerFailures (t : Tracker) : Nat :=
  (t.map (fun ms => nonSuccessSum ms.2)).sum

/-! ## WebContentFetcher (`data_providers/news_pipeline/web_content_fetcher.py`)

`fetch_content` is embedded as a function of the outcomes of its four stages
(each a status/body pair produced by external I/O) that returns the fetched
body, if any, together with the list of `track_request` events it issues, in
order. -/

/-- The keys of `WebContentFetcher._initialize_domain_fetchers`. -/
def domainFetcherDomains : List String := ["www.msn.com"]

/-- The outcomes of the four fetch stages for one `fetch_content` call:
each is the `(status_code, body)` pair the stage would produce if invoked. -/
structure FetchOutcomes where
  custom : Int × String
  basic : Int × String
  postman : Int × String
  playwright : Int × String

/-- Embeds `WebContentFetcher.fetch_content(url)` for a url whose host is `domain`:
custom fetcher short-circuit, then basic GET, then Postman-UA GET, then
Playwright, stopping at the first status 200; returns the body (or `none`)
and the `track_request` events in the order they are issued. -/
def fetchContent (domain : String) (o : FetchOutcomes) :
    Option String × List (String × Int) :=
  if domain ∈ domainFetcherDomains then
    if o.custom.1 = 200 then
      (some o.custom.2, [("custom_" ++ domain ++ "_request", 200)])
    else
      (none, [("custom_" ++ domain ++ "_request", o.custom.1)])
  else
    if o.basic.1 = 200 then (some o.basic.2, [("basic_request", 200)])
    else if o.postman.1 = 200 then (some o.postman.2, [("postman_request", 200)])
    else if o.playwright.1 = 200 then
      (some o.playwright.2, [("playwright_request", 200)])
    else (none, [("all_methods_failed", o.playwright.1)])

/-! ## The msn.com custom fetcher (`WebContentFetcher._fetch_msn_com`)

The headless-browser interaction is external I/O; it is embedded as the
outcome of the browser run inside the `try` block: either the full HTML is
produced, or the run raises (a Playwright `TimeoutError` or any other
exception).  The function's result records the returned status and body and
whether `context.close()`/`browser.close()` ran. -/

/-- Outcome of the headless-browser run in `_fetch_msn_com`'s `try` block. -/
inductive BrowserRun where
  | success (html : String)
  | timeoutError
  | otherError (msg : String)
deriving DecidableEq

/-- Result of `_fetch_msn_com`: `(status, body)` plus whether the browser
context and the browser were closed before returning. -/
structure MsnFetchResult where
  status : Int
  body : String
  contextClosed : Bool
  browserClosed : Bool
deriving DecidableEq

/-- Embeds `WebContentFetcher._fetch_msn_com(url)`: on a successful run it closes the
session and returns `(200, html)`; every exception — the Playwright timeout
included — is caught by the single `except Exception`, which closes the
session and returns `(500, '')`. -/
def fetchMsnCom (run : BrowserRun) : MsnFetchResult :=
  match run with
  | .success html => ⟨200, html, true, true⟩
  | .timeoutError => ⟨500, "", true, true⟩
  | .otherError _ => ⟨500, "", true, true⟩

/-! ## Per-market statistics (`NewsPipeline._log_country_processing_stats`) -/

/-- The key-value pairs logged by `_log_country_processing_stats`; the two
rates are kept as exact rationals (the code formats them with `:.2%`), and
`insert_success_rate = none` stands for the string `"N/A"`. -/
structure CountryStats where
  total_trending_news : Nat
  articles_built : Nat
  articles_inserted : Nat
  build_success_rate : ℚ
  insert_success_rate : Option ℚ
deriving DecidableEq

/-- Embeds `NewsPipeline._log_country_processing_stats(country, trending_news,
built_articles, inserted_articles)`.  `build_success_rate` evaluates
`len(built_articles) / len(trending_news)` unconditionally, which raises
`ZeroDivisionError` when `trending_news` is empty; `insert_success_rate`
is guarded by `if built_articles`. -/
def logCountryProcessingStats (trending built inserted : List String) :
    Except String CountryStats :=
  if trending.length = 0 then
    .error "ZeroDivisionError: division by zero"
  else
    .ok { total_trending_news := trending.length
          articles_built := built.length
          articles_inserted := inserted.length
          build_success_rate := (built.length : ℚ) / trending.length
          insert_success_rate :=
            if built.length ≠ 0 then some ((inserted.length : ℚ) / built.length)
            else none }

/-! ## The persisted article model (`globe_news_scraper/models.py`)

`GlobeArticle` is the pydantic model defined in `models.py` (the file the
rest of the code imports it from).  Its exact field list matters: the model
has *no* `origin_country`, `post_processed`, `source_api`, `date_scraped` or
`schema_version` field, and `language` is a required `str`.  Datetimes are
embedded as integer timestamps. -/

/-- Modelled from the spec: `CURRENT_SCRAPER_VERSION` is imported by
`models.py` from `globe_news_scraper.version`, a module missing from the
sources; the spec only says `schema_version` is a bare string constant. -/
def CURRENT_SCRAPER_VERSION : String := "1.1"

/-- The `GlobeArticle` pydantic model of `models.py`, field for field. -/
structure GlobeArticle where
  title : String
  url : String
  description : String
  date_published : Int
  provider : String
  language : String
  content : String
  keywords : List String := []
  is_breaking_news : Bool := false
  scraper_version : String := CURRENT_SCRAPER_VERSION
  category : Option String := none
  authors : Option (List String) := none
  summary : Option String := none
  geographic_origin : Option String := none
  geographic_connections : Option (List String) := none
  image_url : Option String := none
  trending_date : Option Int := none
  api_origin : Option String := none
deriving DecidableEq

/-- Tests that `p` is a prefix of `l` (character lists). -/
def isPrefixOfChars : List Char → List Char → Bool
  | [], _ => true
  | _ :: _, [] => false
  | p :: ps, c :: cs => p = c && isPrefixOfChars ps cs

/-- pydantic's `HttpUrl` scheme check, modelled as: the string starts with
`http://` or `https://` (the aspect the spec's invariants are about). -/
def isHttpUrl (s : String) : Bool :=
  isPrefixOfChars "http://".toList s.toList
    || isPrefixOfChars "https://".toList s.toList

/-! ## MongoHandler.insert_bulk_articles (`database/mongo_handler.py`)

`insert_many` is MongoDB driver I/O; it is embedded as an outcome parameter
enumerating the branches the code handles: success, `BulkWriteError` (with
the `writeErrors` and `insertedIds` of its `details`), `ExecutionTimeout`,
and any other exception. -/

/-- One entry of `BulkWriteError.details['writeErrors']`. -/
structure WriteError where
  index : Nat
  errmsg : String
deriving DecidableEq

/-- One entry of the `errors` list built by `insert_bulk_articles`; the
timeout/unexpected branches append a dict with only the `error` key. -/
structure InsertErrorEntry where
  index : Option Nat
  url : Option String
  error : String
deriving DecidableEq

/-- Outcome of the `self._articles.insert_many(...)` driver call. -/
inductive InsertManyOutcome where
  | ok (insertedIds : List String)
  | bulkWriteError (writeErrors : List WriteError) (insertedIds : List String)
  | executionTimeout
  | otherError (msg : String)

/-- The `for error in bwe.details.get('writeErrors', [])` loop: one error
entry per write error, reading `serialized_articles[error['index']]['url']`
(an `IndexError` if the reported index is out of range). -/
def buildWriteErrorEntries (articles : List GlobeArticle)
    (wes : List WriteError) : Except String (List InsertErrorEntry) :=
  match wes with
  | [] => .ok []
  | we :: rest =>
    match articles[we.index]? with
    | some a =>
      match buildWriteErrorEntries articles rest with
      | .ok es => .ok (⟨some we.index, some a.url, we.errmsg⟩ :: es)
      | .error e => .error e
    | none => .error "IndexError: list index out of range"

/-- Embeds `MongoHandler.insert_bulk_articles(articles)`: serialize, and unless the
input is empty call `insert_many(serialized, ordered=False)`, translating a
`BulkWriteError` into per-document error entries plus the `insertedIds` of
its details, a timeout or unexpected exception into a single synthetic error
entry, and returning `(inserted_ids, errors)`. -/
def insertBulkArticles (articles : List GlobeArticle)
    (outcome : InsertManyOutcome) :
    Except String (List String × List InsertErrorEntry) :=
  if articles.isEmpty then .ok ([], [])
  else
    match outcome with
    | .ok ids => .ok (ids, [])
    | .bulkWriteError wes ids =>
      match buildWriteErrorEntries articles wes with
      | .ok errs => .ok (ids, errs)
      | .error e => .error e
    | .executionTimeout => .ok ([], [⟨none, none, "Operation timed out"⟩])
    | .otherError m => .ok ([], [⟨none, none, m⟩])

/-! ## ContentValidator (`data_providers/news_pipeline/content_validator.py`)

Python strings are embedded as `List Char`.  The regular-expression
operations are implemented for the five concrete blocked patterns and the
tag pattern `<[^>]+>`, with Python `re` semantics (leftmost match,
non-greedy `.*?` scanning forward to the first viable end, `re.sub`
resuming after each removed match, look-behinds reading the original
string).  `re.IGNORECASE` is modelled as ASCII case insensitivity (the
pattern literals are ASCII).  Functions that skip past a removed match
recurse on a shorter suffix; they take an explicit fuel argument — always
called with the input length, which bounds the recursion depth — so that
they stay structurally recursive and computable by `decide`. -/

/-- Case-insensitive match of one pattern literal `p` (lowercase ASCII in
all the patterns used) against a subject character. -/
def ciMatch (p c : Char) : Bool :=
  c = p || (('a' ≤ p && p ≤ 'z') && c.toNat + 32 = p.toNat)

/-- Case-insensitive "pattern is a prefix of the subject". -/
def isPrefixCI : List Char → List Char → Bool
  | [], _ => true
  | _ :: _, [] => false
  | p :: ps, c :: cs => ciMatch p c && isPrefixCI ps cs

/-- Drop everything up to and including the first case-insensitive
occurrence of `pat`; `none` when there is none. -/
def findCI (pat : List Char) : List Char → Option (List Char)
  | [] => none
  | c :: cs =>
    if isPrefixCI pat (c :: cs) then some ((c :: cs).drop pat.length)
    else findCI pat cs

/-- Drop everything up to and including the first `>`. -/
def findGt : List Char → Option (List Char)
  | [] => none
  | c :: cs => if c = '>' then some cs else findGt cs

/-- Split at the first `>`: the characters before it and the rest after. -/
def splitAtGt : List Char → Option (List Char × List Char)
  | [] => none
  | c :: cs =>
    if c = '>' then some ([], cs)
    else
      match splitAtGt cs with
      | some (mid, rest) => some (c :: mid, rest)
      | none => none

/-- The class `[a-zA-Z_]`. -/
def isAlphaUnd (c : Char) : Bool :=
  ('a' ≤ c && c ≤ 'z') || ('A' ≤ c && c ≤ 'Z') || c = '_'

/-- The class `[a-zA-Z0-9_]`. -/
def isAlnumUnd (c : Char) : Bool :=
  isAlphaUnd c || ('0' ≤ c && c ≤ '9')

/-- The rest of the subject after the first `(?<!\\)q` closing quote, the
look-behind reading the immediately preceding original character `prev`. -/
def findCloseQuote (q : Char) : Char → List Char → Option (List Char)
  | _, [] => none
  | prev, c :: cs =>
    if c = q && prev ≠ '\\' then some cs else findCloseQuote q c cs

/-- After a case-insensitive `<name` prefix: consume the non-greedy `.*?>`
(first `>`) and then the non-greedy `.*?</name>` (first case-insensitive
`</name>`), returning the rest of the subject; `none` when either part is
missing, in which case the pattern has no match at this position. -/
def findBlockEnd (name : List Char) (l : List Char) : Option (List Char) :=
  match findGt l with
  | some r1 => findCI ('<' :: '/' :: (name ++ ['>'])) r1
  | none => none

/-- Embeds `re.sub(r'<name.*?>.*?</name>', '', s, flags=re.IGNORECASE | re.DOTALL)`
for a literal tag `name` (used with `script` and `iframe`). -/
def subBlockTagF (name : List Char) : Nat → List Char → List Char
  | 0, _ => []
  | _ + 1, [] => []
  | fuel + 1, c :: cs =>
    if isPrefixCI ('<' :: name) (c :: cs) then
      match findBlockEnd name ((c :: cs).drop ('<' :: name).length) with
      | some r2 => subBlockTagF name fuel r2
      | none => c :: subBlockTagF name fuel cs
    else c :: subBlockTagF name fuel cs

def subBlockTag (name : List Char) (l : List Char) : List Char :=
  subBlockTagF name l.length l

/-- Embeds `re.sub(r"(?<!\\)q.*?(?<!\\)q", '', s, flags=...)` for a quote
character `q`; `prev` is the original character before the current
position (`none` at the start of the string). -/
def subQuoteF (q : Char) : Nat → Option Char → List Char → List Char
  | 0, _, _ => []
  | _ + 1, _, [] => []
  | fuel + 1, prev, c :: cs =>
    if c = q && prev ≠ some '\\' then
      match findCloseQuote q c cs with
      | some r => subQuoteF q fuel (some q) r
      | none => c :: subQuoteF q fuel (some c) cs
    else c :: subQuoteF q fuel (some c) cs

def subQuote (q : Char) (l : List Char) : List Char :=
  subQuoteF q l.length none l

/-- After a `$`: the greedy `[a-zA-Z_][a-zA-Z0-9_]*` operator name, if it
is there, returning the rest of the subject after it. -/
def dollarSpan (cs : List Char) : Option (List Char) :=
  match cs with
  | d :: ds => if isAlphaUnd d then some (ds.dropWhile isAlnumUnd) else none
  | [] => none

/-- Embeds `re.sub(r'\$[a-zA-Z_][a-zA-Z0-9_]*', '', s)`. -/
def subDollarF : Nat → List Char → List Char
  | 0, _ => []
  | _ + 1, [] => []
  | fuel + 1, c :: cs =>
    if c = '$' then
      match dollarSpan cs with
      | some r => subDollarF fuel r
      | none => c :: subDollarF fuel cs
    else c :: subDollarF fuel cs

def subDollar (l : List Char) : List Char :=
  subDollarF l.length l

/-- After a `<`: the `[^>]+>` part of the tag pattern — at least one
character before the first `>` — returning the rest after that `>`. -/
def tagSpan (cs : List Char) : Option (List Char) :=
  match splitAtGt cs with
  | some (mid, rest) => if mid.isEmpty then none else some rest
  | none => none

/-- Embeds `re.sub(r'<[^>]+>', '', s)`. -/
def subTagsF : Nat → List Char → List Char
  | 0, _ => []
  | _ + 1, [] => []
  | fuel + 1, c :: cs =>
    if c = '<' then
      match tagSpan cs with
      | some rest => subTagsF fuel rest
      | none => c :: subTagsF fuel cs
    else c :: subTagsF fuel cs

def subTags (l : List Char) : List Char :=
  subTagsF l.length l

/-- What remains to be processed after a `\r` is replaced: an immediately
following `\n` is consumed with it (the `\r\n` → `\n` pass runs first). -/
def crSpan : List Char → List Char
  | [] => []
  | d :: ds => if d = '\n' then ds else d :: ds

/-- Embeds `content.replace('\r\n', '\n').replace('\r', '\n')`. -/
def normalizeCRF : Nat → List Char → List Char
  | 0, _ => []
  | _ + 1, [] => []
  | fuel + 1, c :: cs =>
    if c = '\r' then '\n' :: normalizeCRF fuel (crSpan cs)
    else c :: normalizeCRF fuel cs

def normalizeCR (l : List Char) : List Char :=
  normalizeCRF l.length l

/-- Embeds `re.sub` of two or more newlines by one: every maximal newline run becomes one. -/
def collapseNewlinesF : Nat → List Char → List Char
  | 0, _ => []
  | _ + 1, [] => []
  | fuel + 1, c :: cs =>
    if c = '\n' then '\n' :: collapseNewlinesF fuel (cs.dropWhile (fun d => d = '\n'))
    else c :: collapseNewlinesF fuel cs

def collapseNewlines (l : List Char) : List Char :=
  collapseNewlinesF l.length l

/-- Embeds `html.escape(s, quote=True)` on one character. -/
def escapeChar (c : Char) : List Char :=
  if c = '&' then ['&', 'a', 'm', 'p', ';']
  else if c = '<' then ['&', 'l', 't', ';']
  else if c = '>' then ['&', 'g', 't', ';']
  else if c = '"' then ['&', 'q', 'u', 'o', 't', ';']
  else if c = '\'' then ['&', '#', 'x', '2', '7', ';']
  else [c]

/-- Embeds `html.escape(s, quote=True)`. -/
def htmlEscape : List Char → List Char
  | [] => []
  | c :: cs => escapeChar c ++ htmlEscape cs

/-- One character under NFKC.  This models the Python standard library call
`unicodedata.normalize('NFKC', ...)` (external to the repository): NFKC is
the identity on ASCII, and the table lists the compatibility mappings of
the fullwidth punctuation characters relevant here; other characters are
kept as they are. -/
def nfkcChar (c : Char) : List Char :=
  if c.toNat < 128 then [c]
  else if c = '＄' then ['$']
  else if c = '＜' then ['<']
  else if c = '＞' then ['>']
  else if c = '＇' then ['\'']
  else if c = '＂' then ['"']
  else [c]

/-- Embeds `unicodedata.normalize('NFKC', s)` under the character model above. -/
def nfkcNormalize : List Char → List Char
  | [] => []
  | c :: cs => nfkcChar c ++ nfkcNormalize cs

/-- The tag-name literal of the first blocked pattern. -/
def scriptName : List Char := "script".toList

/-- The tag-name literal of the second blocked pattern. -/
def iframeName : List Char := "iframe".toList

/-- Embeds `ContentValidator.sanitize(content)`: delete the five blocked patterns
in their listed order, strip remaining `<[^>]+>` tags, normalize and
collapse newlines, HTML-escape with quotes, and NFKC-normalize. -/
def sanitize (l : List Char) : List Char :=
  nfkcNormalize (htmlEscape (collapseNewlines (normalizeCR (subTags
    (subDollar (subQuote '"' (subQuote '\'' (subBlockTag iframeName
      (subBlockTag scriptName l)))))))))

/-- Embeds `re.search` for `<name.*?>.*?</name>` (IGNORECASE, DOTALL): is there a
case-insensitive `<name`, a `>` after it and a `</name>` after that. -/
def searchBlockTag (name : List Char) (l : List Char) : Bool :=
  match findCI ('<' :: name) l with
  | none => false
  | some r1 =>
    match findGt r1 with
    | none => false
    | some r2 => (findCI ('<' :: '/' :: (name ++ ['>'])) r2).isSome

/-- Is there a `(?<!\\)q` in the subject whose preceding original character
is `prev` at the start. -/
def hasUnescaped (q : Char) : Char → List Char → Bool
  | _, [] => false
  | prev, c :: cs => (c = q && prev ≠ '\\') || hasUnescaped q c cs

/-- Embeds `re.search` for `(?<!\\)q.*?(?<!\\)q`: a match exists iff some
unescaped `q` is followed by another unescaped `q`. -/
def searchQuoteAux (q : Char) : Option Char → List Char → Bool
  | _, [] => false
  | prev, c :: cs =>
    if c = q && prev ≠ some '\\' then hasUnescaped q c cs
    else searchQuoteAux q (some c) cs

def searchQuote (q : Char) (l : List Char) : Bool :=
  searchQuoteAux q none l

/-- Embeds `re.search` for `\$[a-zA-Z_][a-zA-Z0-9_]*`. -/
def searchDollar : List Char → Bool
  | [] => false
  | c :: cs =>
    (c = '$' && (match cs with | d :: _ => isAlphaUnd d | [] => false))
      || searchDollar cs

/-- Embeds `re.search` for the HTML-tag pattern `<[^>]+>`. -/
def searchTag : List Char → Bool
  | [] => false
  | c :: cs =>
    (c = '<' && (match splitAtGt cs with
      | some (mid, _) => !mid.isEmpty
      | none => false)) || searchTag cs

/-- The validator's length configuration (`MIN_CONTENT_LENGTH`,
`MAX_CONTENT_LENGTH`). -/
structure ValidatorConfig where
  MIN_CONTENT_LENGTH : Nat
  MAX_CONTENT_LENGTH : Nat
deriving DecidableEq

/-- The length issues appended first by `ContentValidator.validate`:
over-length, exclusive-or under-length. -/
def lengthIssues (cfg : ValidatorConfig) (l : List Char) : List String :=
  if cfg.MAX_CONTENT_LENGTH < l.length then
    ["Content exceeds maximum length"]
  else if l.length < cfg.MIN_CONTENT_LENGTH then
    ["Content does not meet minimum length"]
  else []

/-- The per-pattern issues appended by `ContentValidator.validate`, in the
order of `_blocked_patterns`. -/
def patternIssues (l : List Char) : List String :=
  (if searchBlockTag scriptName l then ["unsafe pattern: script"] else []) ++
  (if searchBlockTag iframeName l then ["unsafe pattern: iframe"] else []) ++
  (if searchQuote '\'' l then ["unsafe pattern: single quotes"] else []) ++
  (if searchQuote '"' l then ["unsafe pattern: double quotes"] else []) ++
  (if searchDollar l then ["unsafe pattern: dollar operator"] else [])

/-- Embeds `ContentValidator.validate(content)`: `(ok, issues)` with `ok` true iff
no issue was recorded. -/
def validate (cfg : ValidatorConfig) (l : List Char) : Bool × List String :=
  let issues := lengthIssues cfg l ++ patternIssues l
  (issues.isEmpty, issues)

/-! ## ArticleBuilder (`data_providers/news_pipeline/article_builder.py`)

`build` fetches raw HTML, extracts an `ArticleData`, sanitizes and validates
the body, and composes a `GlobeArticle`.  The fetch result and the Goose
extraction are external I/O, passed in as the per-call environment.  The
telemetry calls go through an attribute lookup on `ArticleCounter`, so that
a call to an undefined method is an `AttributeError` value. -/

/-- Modelled from the spec: `ArticleData` is imported by the pipeline from
`globe_news_scraper.models`, where no such class exists in the sources; per
spec §3 ExtractedContent it has `cleaned_text`, optional `meta_lang`,
`meta_keywords` (a string, possibly empty), `authors`, optional
`top_image`. -/
structure ArticleData where
  cleaned_text : String
  meta_lang : Option String := none
  meta_keywords : String := ""
  authors : List String := []
  top_image : Option String := none
deriving DecidableEq

/-- Embeds `NewsSourceArticleData` (`data_providers/news_sources/models.py`): the
discovery item handed to `build`. -/
structure NewsSourceArticleData where
  title : String
  url : String
  description : String
  date_published : Int
  provider : String
  origin_country : String
  image_url : Option String := none
  language : Option String := none
  source_api : String
deriving DecidableEq

/-- Python's `a or b` on two optional values: `b` when `a` is `None`. -/
def pyOr {α : Type} (a b : Option α) : Option α :=
  match a with
  | some x => some x
  | none => b

/-- The keyword arguments of the `GlobeArticle(...)` call in
`ArticleBuilder._create_globe_article` (lines 100-114). -/
structure GlobeArticleKwargs where
  title : String
  url : String
  description : String
  date_published : Int
  provider : String
  content : String
  keywords : List String
  authors : List String
  origin_country : String
  image_url : Option String
  date_scraped : Int
  source_api : String
  language : Option String
deriving DecidableEq

/-- pydantic validation of the `GlobeArticle(...)` call: `url` must be an
http(s) URL; `language` is a required `str` of the model, so a `None` value
is a validation error; `image_url`, when given, must be an http(s) URL; the
keyword arguments `origin_country`, `date_scraped` and `source_api` name no
field of the model and are ignored (pydantic ignores extra keyword
arguments by default); the remaining model fields take their declared
defaults. -/
def globeArticleInit (k : GlobeArticleKwargs) : Except String GlobeArticle :=
  if ¬ isHttpUrl k.url then .error "ValidationError: url: invalid url"
  else
    match k.language with
    | none => .error "ValidationError: language: none is not an allowed value"
    | some lang =>
      match k.image_url with
      | some img =>
        if ¬ isHttpUrl img then .error "ValidationError: image_url: invalid url"
        else .ok { title := k.title, url := k.url,
                   description := k.description,
                   date_published := k.date_published, provider := k.provider,
                   language := lang, content := k.content,
                   keywords := k.keywords, authors := some k.authors,
                   image_url := some img }
      | none => .ok { title := k.title, url := k.url,
                      description := k.description,
                      date_published := k.date_published,
                      provider := k.provider, language := lang,
                      content := k.content, keywords := k.keywords,
                      authors := some k.authors, image_url := none }

/-- Embeds `ArticleBuilder._create_globe_article(extracted_data, news_source_data)`:
the composition call, wrapping any validation error in an
`ArticleBuilderError`.  Note `keywords := [extracted.meta_keywords]` — the
whole `meta_keywords` string as a one-element list — and
`language := news_source_data.language or extracted_data.meta_lang`. -/
def createGlobeArticle (extracted : ArticleData) (n : NewsSourceArticleData)
    (now : Int) : Except String GlobeArticle :=
  match globeArticleInit
      { title := n.title, url := n.url, description := n.description,
        date_published := n.date_published, provider := n.provider,
        content := extracted.cleaned_text,
        keywords := [extracted.meta_keywords],
        authors := extracted.authors,
        origin_country := n.origin_country,
        image_url := pyOr n.image_url extracted.top_image,
        date_scraped := now, source_api := n.source_api,
        language := pyOr n.language extracted.meta_lang } with
  | .ok a => .ok a
  | .error e =>
    .error ("ArticleBuilderError: Failed to create GlobeArticle object: " ++ e)

/-- The methods defined on `ArticleCounter`
(`monitoring/article_counter.py`): the build-outcome tracker is named
`track_build_attempt`. -/
def articleCounterMethods : List String :=
  ["track_build_attempt", "get_total_attempted_articles",
   "get_all_provider_stats"]

/-- A Python method call `article_counter.<name>(...)`: attribute lookup
raises `AttributeError` when `name` is not defined on `ArticleCounter`. -/
def articleCounterCall (name : String) : Except String Unit :=
  if name ∈ articleCounterMethods then .ok ()
  else .error ("AttributeError: ArticleCounter object has no attribute " ++ name)

/-- The per-call environment of `ArticleBuilder.build`: the fetcher's
result, the Goose extraction outcome for the fetched HTML, the validator's
length configuration and the current time. -/
structure BuildEnv where
  fetchResult : Option String
  extractResult : Except String ArticleData
  cfg : ValidatorConfig
  now : Int

/-- Embeds `ArticleBuilder.build(news_item)` (lines 35-79).  Every path calls
`self._telemetry.article_counter.track_scrape_attempt(...)` before
returning; the falsy check `if not raw_article` also treats an empty fetched
string as no content.  The result is `Except`: an `AttributeError` escaping
`build` is an `.error`. -/
def build (n : NewsSourceArticleData) (env : BuildEnv) :
    Except String (Option GlobeArticle) :=
  match env.fetchResult with
  | none =>
    match articleCounterCall "track_scrape_attempt" with
    | .ok _ => .ok none
    | .error e => .error e
  | some raw =>
    if raw = "" then
      match articleCounterCall "track_scrape_attempt" with
      | .ok _ => .ok none
      | .error e => .error e
    else
      match env.extractResult with
      | .error _ =>
        match articleCounterCall "track_scrape_attempt" with
        | .ok _ => .ok none
        | .error e => .error e
      | .ok d0 =>
        let d := { d0 with cleaned_text := String.mk (sanitize d0.cleaned_text.toList) }
        match validate env.cfg d.cleaned_text.toList with
        | (false, _) =>
          match articleCounterCall "track_scrape_attempt" with
          | .ok _ => .ok none
          | .error e => .error e
        | (true, _) =>
          match createGlobeArticle d n env.now with
          | .ok a =>
            match articleCounterCall "track_scrape_attempt" with
            | .ok _ => .ok (some a)
            | .error e => .error e
          | .error _ =>
            match articleCounterCall "track_scrape_attempt" with
            | .ok _ => .ok none
            | .error e => .error e

/-- Python's `str.split()` with no argument: split on runs of whitespace,
with no empty fields. -/
def isPySpace (c : Char) : Bool :=
  c = ' ' || c = '\t' || c = '\n' || c = '\r' || c = '\x0b' || c = '\x0c'

def splitWhitespaceF : Nat → List Char → List (List Char)
  | 0, _ => []
  | fuel + 1, l =>
    match l.dropWhile isPySpace with
    | [] => []
    | l' => l'.takeWhile (fun c => !isPySpace c) ::
        splitWhitespaceF fuel (l'.dropWhile (fun c => !isPySpace c))

/-- The spec's derivation of `keywords` (§4.5), stated for comparison with
the code: `ExtractedContent.meta_keywords` split on whitespace, or the
empty list when it is empty. -/
def specKeywords (metaKeywords : String) : List String :=
  (splitWhitespaceF metaKeywords.toList.length metaKeywords.toList).map
    (fun w => String.mk w)

theorem bumpStatus_cons_same (s : Int) (n : Nat) (rest : List (Int × Nat)) :
    bumpStatus ((s, n) :: rest) s = (s, n + 1) :: rest := by
  simp [bumpStatus]

theorem bumpStatus_cons_other (s s' : Int) (n : Nat) (rest : List (Int × Nat))
    (h : s' ≠ s) :
    bumpStatus ((s', n) :: rest) s = (s', n) :: bumpStatus rest s := by
  simp [bumpStatus, h]

theorem lookupStatus_cons (s s' : Int) (n : Nat) (rest : List (Int × Nat)) :
    lookupStatus ((s', n) :: rest) s =
      if s' = s then some n else lookupStatus rest s := rfl

theorem trackRequest_cons_same (m : String) (stats : List (Int × Nat))
    (rest : Tracker) (s : Int) :
    trackRequest ((m, stats) :: rest) m s = (m, bumpStatus stats s) :: rest := by
  simp [trackRequest]

theorem trackRequest_cons_other (m m' : String) (stats : List (Int × Nat))
    (rest : Tracker) (s : Int) (h : m' ≠ m) :
    trackRequest ((m', stats) :: rest) m s =
      (m', stats) :: trackRequest rest m s := by
  simp [trackRequest, h]

theorem trackerSuccesses_cons (m : String) (stats : List (Int × Nat))
    (t : Tracker) :
    trackerSuccesses ((m, stats) :: t) =
      (lookupStatus stats 200).getD 0 + trackerSuccesses t := by
  simp [trackerSuccesses]

theorem trackerFailures_cons (m : String) (stats : List (Int × Nat))
    (t : Tracker) :
    trackerFailures ((m, stats) :: t) = nonSuccessSum stats + trackerFailures t := by
  simp [trackerFailures]

theorem lookupStatus_bumpStatus_same (stats : List (Int × Nat)) (s : Int) :
    lookupStatus (bumpStatus stats s) s =
      some ((lookupStatus stats s).getD 0 + 1) := by
  induction stats with
  | nil => simp [bumpStatus, lookupStatus]
  | cons p rest ih =>
    obtain ⟨ps, pn⟩ := p
    by_cases hps : ps = s
    · subst hps
      rw [bumpStatus_cons_same, lookupStatus_cons, lookupStatus_cons]
      simp
    · rw [bumpStatus_cons_other _ _ _ _ (fun hc => hps hc),
        lookupStatus_cons, lookupStatus_cons, if_neg hps, if_neg hps, ih]

theorem lookupStatus_bumpStatus_other (stats : List (Int × Nat)) (s s' : Int)
    (h : s' ≠ s) :
    lookupStatus (bumpStatus stats s) s' = lookupStatus stats s' := by
  induction stats with
  | nil =>
    simp only [bumpStatus, lookupStatus, if_neg (Ne.symm h)]
  | cons p rest ih =>
    obtain ⟨ps, pn⟩ := p
    by_cases hps : ps = s
    · subst hps
      rw [bumpStatus_cons_same, lookupStatus_cons, lookupStatus_cons,
        if_neg (Ne.symm h), if_neg (Ne.symm h)]
    · rw [bumpStatus_cons_other _ _ _ _ hps, lookupStatus_cons, lookupStatus_cons,
        ih]

theorem nonSuccessSum_cons (s : Int) (n : Nat) (rest : List (Int × Nat)) :
    nonSuccessSum ((s, n) :: rest) =
      (if s ≠ 200 then n else 0) + nonSuccessSum rest := rfl

theorem nonSuccessSum_bumpStatus (stats : List (Int × Nat)) (s : Int) :
    nonSuccessSum (bumpStatus stats s) =
      nonSuccessSum stats + (if s ≠ 200 then 1 else 0) := by
  induction stats with
  | nil =>
    by_cases h : s = 200 <;> simp [bumpStatus, nonSuccessSum, h]
  | cons p rest ih =>
    obtain ⟨ps, pn⟩ := p
    by_cases hps : ps = s
    · subst hps
      rw [bumpStatus_cons_same, nonSuccessSum_cons, nonSuccessSum_cons]
      by_cases h : ps = 200 <;> simp [h] <;> omega
    · rw [bumpStatus_cons_other _ _ _ _ hps, nonSuccessSum_cons,
        nonSuccessSum_cons, ih]
      omega

theorem trackerSuccesses_trackRequest (t : Tracker) (m : String) (s : Int) :
    trackerSuccesses (trackRequest t m s) =
      trackerSuccesses t + (if s = 200 then 1 else 0) := by
  induction t with
  | nil =>
    by_cases h : s = 200 <;>
      simp [trackerSuccesses, trackRequest, bumpStatus, lookupStatus, h, eq_comm]
  | cons p rest ih =>
    obtain ⟨pm, pstats⟩ := p
    by_cases hpm : pm = m
    · subst hpm
      rw [trackRequest_cons_same, trackerSuccesses_cons _ _ _,
        trackerSuccesses_cons _ _ _]
      by_cases h : s = 200
      · subst h
        rw [lookupStatus_bumpStatus_same]
        simp
        omega
      · rw [lookupStatus_bumpStatus_other _ _ _ (fun hc => h hc.symm)]
        simp [h]
    · rw [trackRequest_cons_other _ _ _ _ _ hpm, trackerSuccesses_cons,
        trackerSuccesses_cons, ih]
      omega

theorem trackerFailures_trackRequest (t : Tracker) (m : String) (s : Int) :
    trackerFailures (trackRequest t m s) =
      trackerFailures t + (if s ≠ 200 then 1 else 0) := by
  induction t with
  | nil =>
    by_cases h : s = 200 <;>
      simp [trackerFailures, trackRequest, bumpStatus, nonSuccessSum, h]
  | cons p rest ih =>
    obtain ⟨pm, pstats⟩ := p
    by_cases hpm : pm = m
    · subst hpm
      rw [trackRequest_cons_same, trackerFailures_cons _ _ _,
        trackerFailures_cons _ _ _, nonSuccessSum_bumpStatus]
      omega
    · rw [trackRequest_cons_other _ _ _ _ _ hpm, trackerFailures_cons,
        trackerFailures_cons, ih]
      omega

theorem trackerSuccesses_fromEvents (events : List (String × Int)) :
    trackerSuccesses (trackerFromEvents events) = eventSuccesses events := by
  suffices h : ∀ (t : Tracker),
      trackerSuccesses (events.foldl (fun t e => trackRequest t e.1 e.2) t) =
        trackerSuccesses t + eventSuccesses events by
    have := h []
    simpa [trackerFromEvents, trackerSuccesses] using this
  induction events with
  | nil => intro t; simp [eventSuccesses]
  | cons e rest ih =>
    intro t
    simp only [List.foldl_cons]
    rw [ih, trackerSuccesses_trackRequest]
    simp only [eventSuccesses, List.countP_cons]
    by_cases h : e.2 = 200 <;> simp [h] <;> omega

theorem trackerFailures_fromEvents (events : List (String × Int)) :
    trackerFailures (trackerFromEvents events) = eventFailures events := by
  suffices h : ∀ (t : Tracker),
      trackerFailures (events.foldl (fun t e => trackRequest t e.1 e.2) t) =
        trackerFailures t + eventFailures events by
    have := h []
    simpa [trackerFromEvents, trackerFailures] using this
  induction events with
  | nil => intro t; simp [eventFailures]
  | cons e rest ih =>
    intro t
    simp only [List.foldl_cons]
    rw [ih, trackerFailures_trackRequest]
    simp only [eventFailures, List.countP_cons]
    by_cases h : e.2 = 200 <;> simp [h] <;> omega

theorem successCounts_of_all200 (t : Tracker)
    (h : ∀ p ∈ t, lookupStatus p.2 200 ≠ none) :
    successCounts t =
      Except.ok (t.map (fun ms => (lookupStatus ms.2 200).getD 0)) := by
  induction t with
  | nil => rfl
  | cons p rest ih =>
    have hp := h p (List.mem_cons_self p rest)
    obtain ⟨n, hn⟩ : ∃ n, lookupStatus p.2 200 = some n := by
      cases hl : lookupStatus p.2 200 with
      | none => exact absurd hl hp
      | some n => exact ⟨n, rfl⟩
    have hrest := ih (fun q hq => h q (List.mem_cons_of_mem p hq))
    simp [successCounts, hn, hrest]

theorem getTotalRequests_of_all200 (t : Tracker)
    (h : ∀ p ∈ t, lookupStatus p.2 200 ≠ none) :
    getTotalRequests t = .ok (trackerSuccesses t, trackerFailures t) := by
  simp only [getTotalRequests, successCounts_of_all200 t h]
  rfl

theorem buildWriteErrorEntries_of_inRange (articles : List GlobeArticle)
    (wes : List WriteError) (h : ∀ we ∈ wes, we.index < articles.length) :
    buildWriteErrorEntries articles wes =
      .ok (wes.map (fun we =>
        ⟨some we.index, (articles[we.index]?).map (fun a => a.url),
          we.errmsg⟩)) := by
  induction wes with
  | nil => rfl
  | cons we rest ih =>
    have hw : we.index < articles.length := h we (List.mem_cons_self we rest)
    have hrest := ih (fun q hq => h q (List.mem_cons_of_mem we hq))
    simp [buildWriteErrorEntries, List.getElem?_eq_getElem hw, hrest]

/-! ### Character-subset lemmas for the sanitize stages -/

theorem mem_of_mem_dropWhileP {p : Char → Bool} {l : List Char} {c : Char}
    (h : c ∈ l.dropWhile p) : c ∈ l := by
  induction l with
  | nil => simp at h
  | cons d ds ih =>
    by_cases hd : p d
    · rw [List.dropWhile_cons, if_pos hd] at h
      exact List.mem_cons_of_mem d (ih h)
    · rwa [List.dropWhile_cons, if_neg hd] at h

theorem findGt_subset {l r : List Char} (h : findGt l = some r) :
    ∀ c ∈ r, c ∈ l := by
  induction l with
  | nil => simp [findGt] at h
  | cons d ds ih =>
    by_cases hd : d = '>'
    · rw [findGt, if_pos hd, Option.some.injEq] at h
      subst h
      exact fun c hc => List.mem_cons_of_mem d hc
    · rw [findGt, if_neg hd] at h
      exact fun c hc => List.mem_cons_of_mem d (ih h c hc)

theorem findCI_subset {pat l r : List Char} (h : findCI pat l = some r) :
    ∀ c ∈ r, c ∈ l := by
  induction l with
  | nil => simp [findCI] at h
  | cons d ds ih =>
    by_cases hp : isPrefixCI pat (d :: ds)
    · rw [findCI, if_pos hp, Option.some.injEq] at h
      subst h
      exact fun c hc => List.mem_of_mem_drop hc
    · rw [findCI, if_neg hp] at h
      exact fun c hc => List.mem_cons_of_mem d (ih h c hc)

theorem splitAtGt_subset {l mid rest : List Char}
    (h : splitAtGt l = some (mid, rest)) : ∀ c ∈ rest, c ∈ l := by
  induction l generalizing mid with
  | nil => simp [splitAtGt] at h
  | cons d ds ih =>
    by_cases hd : d = '>'
    · rw [splitAtGt, if_pos hd, Option.some.injEq, Prod.mk.injEq] at h
      obtain ⟨-, hr⟩ := h
      subst hr
      exact fun c hc => List.mem_cons_of_mem d hc
    · rw [splitAtGt, if_neg hd] at h
      cases hm : splitAtGt ds with
      | none => rw [hm] at h; exact absurd h (by simp)
      | some p =>
        obtain ⟨a, b⟩ := p
        rw [hm] at h
        simp only [Option.some.injEq, Prod.mk.injEq] at h
        obtain ⟨-, hr⟩ := h
        subst hr
        exact fun c hc => List.mem_cons_of_mem d (ih hm c hc)

theorem findCloseQuote_subset {q prev : Char} {l r : List Char}
    (h : findCloseQuote q prev l = some r) : ∀ c ∈ r, c ∈ l := by
  induction l generalizing prev with
  | nil => simp [findCloseQuote] at h
  | cons d ds ih =>
    by_cases hd : (d = q && prev ≠ '\\') = true
    · rw [findCloseQuote, if_pos hd, Option.some.injEq] at h
      subst h
      exact fun c hc => List.mem_cons_of_mem d hc
    · rw [findCloseQuote, if_neg hd] at h
      exact fun c hc => List.mem_cons_of_mem d (ih h c hc)

theorem findBlockEnd_subset {name l r : List Char}
    (h : findBlockEnd name l = some r) : ∀ c ∈ r, c ∈ l := by
  unfold findBlockEnd at h
  cases hg : findGt l with
  | none => rw [hg] at h; exact absurd h (by simp)
  | some r1 =>
    rw [hg] at h
    exact fun c hc => findGt_subset hg c (findCI_subset h c hc)

theorem dollarSpan_subset {cs r : List Char} (h : dollarSpan cs = some r) :
    ∀ c ∈ r, c ∈ cs := by
  match cs with
  | [] => simp [dollarSpan] at h
  | d :: ds =>
    by_cases hd : isAlphaUnd d
    · rw [dollarSpan, if_pos hd, Option.some.injEq] at h
      subst h
      exact fun c hc =>
        List.mem_cons_of_mem d (mem_of_mem_dropWhileP hc)
    · rw [dollarSpan, if_neg hd] at h
      exact absurd h (by simp)

theorem tagSpan_subset {cs r : List Char} (h : tagSpan cs = some r) :
    ∀ c ∈ r, c ∈ cs := by
  unfold tagSpan at h
  cases hm : splitAtGt cs with
  | none => rw [hm] at h; exact absurd h (by simp)
  | some p =>
    obtain ⟨mid, rest⟩ := p
    rw [hm] at h
    have h' : (if mid.isEmpty = true then none else some rest) = some r := h
    by_cases hmid : mid.isEmpty
    · rw [if_pos hmid] at h'; exact absurd h' (by simp)
    · rw [if_neg hmid, Option.some.injEq] at h'
      subst h'
      exact splitAtGt_subset hm

theorem crSpan_subset (cs : List Char) : ∀ c ∈ crSpan cs, c ∈ cs := by
  match cs with
  | [] => simp [crSpan]
  | d :: ds =>
    by_cases hd : d = '\n'
    · rw [crSpan, if_pos hd]
      exact fun c hc => List.mem_cons_of_mem d hc
    · rw [crSpan, if_neg hd]
      exact fun c hc => hc

theorem subBlockTagF_subset (name : List Char) (fuel : Nat) :
    ∀ (l : List Char), ∀ c ∈ subBlockTagF name fuel l, c ∈ l := by
  induction fuel with
  | zero => intro l c hc; simp [subBlockTagF] at hc
  | succ fuel ih =>
    intro l c hc
    match l with
    | [] => simp [subBlockTagF] at hc
    | d :: ds =>
      by_cases hp : isPrefixCI ('<' :: name) (d :: ds)
      · cases hb : findBlockEnd name ((d :: ds).drop ('<' :: name).length) with
        | none =>
          have heq : subBlockTagF name (fuel + 1) (d :: ds) =
              d :: subBlockTagF name fuel ds := by
            rw [subBlockTagF, if_pos hp, hb]
          rw [heq] at hc
          rcases List.mem_cons.mp hc with rfl | hc'
          · exact List.mem_cons_self _ _
          · exact List.mem_cons_of_mem d (ih ds c hc')
        | some r2 =>
          have heq : subBlockTagF name (fuel + 1) (d :: ds) =
              subBlockTagF name fuel r2 := by
            rw [subBlockTagF, if_pos hp, hb]
          rw [heq] at hc
          have h1 : c ∈ r2 := ih r2 c hc
          exact List.mem_of_mem_drop (findBlockEnd_subset hb c h1)
      · have heq : subBlockTagF name (fuel + 1) (d :: ds) =
            d :: subBlockTagF name fuel ds := by
          rw [subBlockTagF, if_neg hp]
        rw [heq] at hc
        rcases List.mem_cons.mp hc with rfl | hc'
        · exact List.mem_cons_self _ _
        · exact List.mem_cons_of_mem d (ih ds c hc')

theorem subQuoteF_subset (q : Char) (fuel : Nat) :
    ∀ (prev : Option Char) (l : List Char),
      ∀ c ∈ subQuoteF q fuel prev l, c ∈ l := by
  induction fuel with
  | zero => intro prev l c hc; simp [subQuoteF] at hc
  | succ fuel ih =>
    intro prev l c hc
    match l with
    | [] => simp [subQuoteF] at hc
    | d :: ds =>
      by_cases hd : (d = q && prev ≠ some '\\') = true
      · cases hf : findCloseQuote q d ds with
        | none =>
          have heq : subQuoteF q (fuel + 1) prev (d :: ds) =
              d :: subQuoteF q fuel (some d) ds := by
            rw [subQuoteF, if_pos hd, hf]
          rw [heq] at hc
          rcases List.mem_cons.mp hc with rfl | hc'
          · exact List.mem_cons_self _ _
          · exact List.mem_cons_of_mem d (ih (some d) ds c hc')
        | some r =>
          have heq : subQuoteF q (fuel + 1) prev (d :: ds) =
              subQuoteF q fuel (some q) r := by
            rw [subQuoteF, if_pos hd, hf]
          rw [heq] at hc
          have h1 : c ∈ r := ih (some q) r c hc
          exact List.mem_cons_of_mem d (findCloseQuote_subset hf c h1)
      · have heq : subQuoteF q (fuel + 1) prev (d :: ds) =
            d :: subQuoteF q fuel (some d) ds := by
          rw [subQuoteF, if_neg hd]
        rw [heq] at hc
        rcases List.mem_cons.mp hc with rfl | hc'
        · exact List.mem_cons_self _ _
        · exact List.mem_cons_of_mem d (ih (some d) ds c hc')

theorem subDollarF_subset (fuel : Nat) :
    ∀ (l : List Char), ∀ c ∈ subDollarF fuel l, c ∈ l := by
  induction fuel with
  | zero => intro l c hc; simp [subDollarF] at hc
  | succ fuel ih =>
    intro l c hc
    match l with
    | [] => simp [subDollarF] at hc
    | d :: ds =>
      by_cases hd : d = '$'
      · cases hs : dollarSpan ds with
        | none =>
          have heq : subDollarF (fuel + 1) (d :: ds) =
              d :: subDollarF fuel ds := by
            rw [subDollarF, if_pos hd, hs]
          rw [heq] at hc
          rcases List.mem_cons.mp hc with rfl | hc'
          · exact List.mem_cons_self _ _
          · exact List.mem_cons_of_mem d (ih ds c hc')
        | some r =>
          have heq : subDollarF (fuel + 1) (d :: ds) = subDollarF fuel r := by
            rw [subDollarF, if_pos hd, hs]
          rw [heq] at hc
          exact List.mem_cons_of_mem d (dollarSpan_subset hs c (ih r c hc))
      · have heq : subDollarF (fuel + 1) (d :: ds) =
            d :: subDollarF fuel ds := by
          rw [subDollarF, if_neg hd]
        rw [heq] at hc
        rcases List.mem_cons.mp hc with rfl | hc'
        · exact List.mem_cons_self _ _
        · exact List.mem_cons_of_mem d (ih ds c hc')

theorem subTagsF_subset (fuel : Nat) :
    ∀ (l : List Char), ∀ c ∈ subTagsF fuel l, c ∈ l := by
  induction fuel with
  | zero => intro l c hc; simp [subTagsF] at hc
  | succ fuel ih =>
    intro l c hc
    match l with
    | [] => simp [subTagsF] at hc
    | d :: ds =>
      by_cases hd : d = '<'
      · cases ht : tagSpan ds with
        | none =>
          have heq : subTagsF (fuel + 1) (d :: ds) = d :: subTagsF fuel ds := by
            rw [subTagsF, if_pos hd, ht]
          rw [heq] at hc
          rcases List.mem_cons.mp hc with rfl | hc'
          · exact List.mem_cons_self _ _
          · exact List.mem_cons_of_mem d (ih ds c hc')
        | some rest =>
          have heq : subTagsF (fuel + 1) (d :: ds) = subTagsF fuel rest := by
            rw [subTagsF, if_pos hd, ht]
          rw [heq] at hc
          exact List.mem_cons_of_mem d (tagSpan_subset ht c (ih rest c hc))
      · have heq : subTagsF (fuel + 1) (d :: ds) = d :: subTagsF fuel ds := by
          rw [subTagsF, if_neg hd]
        rw [heq] at hc
        rcases List.mem_cons.mp hc with rfl | hc'
        · exact List.mem_cons_self _ _
        · exact List.mem_cons_of_mem d (ih ds c hc')

theorem normalizeCRF_mem (fuel : Nat) :
    ∀ (l : List Char), ∀ c ∈ normalizeCRF fuel l, c ∈ l ∨ c = '\n' := by
  induction fuel with
  | zero => intro l c hc; simp [normalizeCRF] at hc
  | succ fuel ih =>
    intro l c hc
    match l with
    | [] => simp [normalizeCRF] at hc
    | d :: ds =>
      by_cases hd : d = '\r'
      · have heq : normalizeCRF (fuel + 1) (d :: ds) =
            '\n' :: normalizeCRF fuel (crSpan ds) := by
          rw [normalizeCRF, if_pos hd]
        rw [heq] at hc
        rcases List.mem_cons.mp hc with rfl | hc'
        · exact Or.inr rfl
        · rcases ih (crSpan ds) c hc' with h | h
          · exact Or.inl (List.mem_cons_of_mem d (crSpan_subset ds c h))
          · exact Or.inr h
      · have heq : normalizeCRF (fuel + 1) (d :: ds) =
            d :: normalizeCRF fuel ds := by
          rw [normalizeCRF, if_neg hd]
        rw [heq] at hc
        rcases List.mem_cons.mp hc with rfl | hc'
        · exact Or.inl (List.mem_cons_self _ _)
        · rcases ih ds c hc' with h | h
          · exact Or.inl (List.mem_cons_of_mem d h)
          · exact Or.inr h

theorem collapseNewlinesF_subset (fuel : Nat) :
    ∀ (l : List Char), ∀ c ∈ collapseNewlinesF fuel l, c ∈ l := by
  induction fuel with
  | zero => intro l c hc; simp [collapseNewlinesF] at hc
  | succ fuel ih =>
    intro l c hc
    match l with
    | [] => simp [collapseNewlinesF] at hc
    | d :: ds =>
      by_cases hd : d = '\n'
      · have heq : collapseNewlinesF (fuel + 1) (d :: ds) =
            '\n' :: collapseNewlinesF fuel (ds.dropWhile (fun e => e = '\n')) := by
          rw [collapseNewlinesF, if_pos hd]
        rw [heq] at hc
        rcases List.mem_cons.mp hc with rfl | hc'
        · exact hd ▸ List.mem_cons_self _ _
        · exact List.mem_cons_of_mem d (mem_of_mem_dropWhileP (ih _ c hc'))
      · have heq : collapseNewlinesF (fuel + 1) (d :: ds) =
            d :: collapseNewlinesF fuel ds := by
          rw [collapseNewlinesF, if_neg hd]
        rw [heq] at hc
        rcases List.mem_cons.mp hc with rfl | hc'
        · exact List.mem_cons_self _ _
        · exact List.mem_cons_of_mem d (ih ds c hc')

/-! ### html.escape and NFKC lemmas -/

theorem escapeChar_no_bad (c : Char) :
    ∀ e ∈ escapeChar c, e ≠ '<' ∧ e ≠ '>' ∧ e ≠ '"' ∧ e ≠ '\'' := by
  intro e he
  unfold escapeChar at he
  by_cases h1 : c = '&'
  · rw [if_pos h1] at he
    fin_cases he <;> refine ⟨by decide, by decide, by decide, by decide⟩
  · rw [if_neg h1] at he
    by_cases h2 : c = '<'
    · rw [if_pos h2] at he
      fin_cases he <;> refine ⟨by decide, by decide, by decide, by decide⟩
    · rw [if_neg h2] at he
      by_cases h3 : c = '>'
      · rw [if_pos h3] at he
        fin_cases he <;> refine ⟨by decide, by decide, by decide, by decide⟩
      · rw [if_neg h3] at he
        by_cases h4 : c = '"'
        · rw [if_pos h4] at he
          fin_cases he <;> refine ⟨by decide, by decide, by decide, by decide⟩
        · rw [if_neg h4] at he
          by_cases h5 : c = '\''
          · rw [if_pos h5] at he
            fin_cases he <;> refine ⟨by decide, by decide, by decide, by decide⟩
          · rw [if_neg h5] at he
            rcases List.mem_singleton.mp he with rfl
            exact ⟨h2, h3, h4, h5⟩

theorem escapeChar_ascii (c : Char) (hc : c.toNat < 128) :
    ∀ e ∈ escapeChar c, e.toNat < 128 := by
  intro e he
  unfold escapeChar at he
  by_cases h1 : c = '&'
  · rw [if_pos h1] at he; fin_cases he <;> decide
  · rw [if_neg h1] at he
    by_cases h2 : c = '<'
    · rw [if_pos h2] at he; fin_cases he <;> decide
    · rw [if_neg h2] at he
      by_cases h3 : c = '>'
      · rw [if_pos h3] at he; fin_cases he <;> decide
      · rw [if_neg h3] at he
        by_cases h4 : c = '"'
        · rw [if_pos h4] at he; fin_cases he <;> decide
        · rw [if_neg h4] at he
          by_cases h5 : c = '\''
          · rw [if_pos h5] at he; fin_cases he <;> decide
          · rw [if_neg h5] at he
            rcases List.mem_singleton.mp he with rfl
            exact hc

theorem htmlEscape_no_bad (l : List Char) :
    ∀ e ∈ htmlEscape l, e ≠ '<' ∧ e ≠ '>' ∧ e ≠ '"' ∧ e ≠ '\'' := by
  induction l with
  | nil => intro e he; simp [htmlEscape] at he
  | cons c cs ih =>
    intro e he
    rw [htmlEscape] at he
    rcases List.mem_append.mp he with h | h
    · exact escapeChar_no_bad c e h
    · exact ih e h

theorem htmlEscape_ascii (l : List Char) (h : ∀ c ∈ l, c.toNat < 128) :
    ∀ e ∈ htmlEscape l, e.toNat < 128 := by
  induction l with
  | nil => intro e he; simp [htmlEscape] at he
  | cons c cs ih =>
    intro e he
    rw [htmlEscape] at he
    rcases List.mem_append.mp he with h1 | h1
    · exact escapeChar_ascii c (h c (List.mem_cons_self c cs)) e h1
    · exact ih (fun d hd => h d (List.mem_cons_of_mem c hd)) e h1

theorem nfkcChar_ascii_id (c : Char) (hc : c.toNat < 128) :
    nfkcChar c = [c] := by
  unfold nfkcChar
  rw [if_pos hc]

theorem nfkcNormalize_ascii_id (l : List Char) (h : ∀ c ∈ l, c.toNat < 128) :
    nfkcNormalize l = l := by
  induction l with
  | nil => rfl
  | cons c cs ih =>
    rw [nfkcNormalize, nfkcChar_ascii_id c (h c (List.mem_cons_self c cs)),
      ih (fun d hd => h d (List.mem_cons_of_mem c hd))]
    rfl

/-! ### Searches are empty without their trigger characters -/

theorem ciMatch_lt_eq (c : Char) (h : ciMatch '<' c = true) : c = '<' := by
  simp only [ciMatch, Bool.or_eq_true, Bool.and_eq_true, decide_eq_true_eq] at h
  rcases h with h | ⟨⟨h1, -⟩, -⟩
  · exact h
  · exact absurd h1 (by decide)

theorem findCI_lt_none (name : List Char) (l : List Char) (h : '<' ∉ l) :
    findCI ('<' :: name) l = none := by
  induction l with
  | nil => rfl
  | cons d ds ih =>
    have hd : d ≠ '<' := fun hc => h (hc ▸ List.mem_cons_self d ds)
    have hp : isPrefixCI ('<' :: name) (d :: ds) = false := by
      rw [isPrefixCI]
      cases hmatch : ciMatch '<' d with
      | false => rfl
      | true => exact absurd (ciMatch_lt_eq d hmatch) hd
    rw [findCI, hp]
    simp only [Bool.false_eq_true, if_false]
    exact ih (fun hc => h (List.mem_cons_of_mem d hc))

theorem searchBlockTag_false (name : List Char) (l : List Char)
    (h : '<' ∉ l) : searchBlockTag name l = false := by
  rw [searchBlockTag, findCI_lt_none name l h]

theorem searchQuoteAux_false (q : Char) (l : List Char) (h : q ∉ l) :
    ∀ prev, searchQuoteAux q prev l = false := by
  induction l with
  | nil => intro prev; rfl
  | cons d ds ih =>
    intro prev
    have hd : d ≠ q := fun hc => h (hc ▸ List.mem_cons_self d ds)
    rw [searchQuoteAux]
    rw [if_neg (by simp [hd])]
    exact ih (fun hc => h (List.mem_cons_of_mem d hc)) (some d)

theorem searchQuote_false (q : Char) (l : List Char) (h : q ∉ l) :
    searchQuote q l = false :=
  searchQuoteAux_false q l h none

theorem searchTag_false (l : List Char) (h : '<' ∉ l) :
    searchTag l = false := by
  induction l with
  | nil => rfl
  | cons d ds ih =>
    have hd : d ≠ '<' := fun hc => h (hc ▸ List.mem_cons_self d ds)
    rw [searchTag]
    rw [ih (fun hc => h (List.mem_cons_of_mem d hc))]
    simp [hd]

/-! ## Claim theorems: C2, C4, C7, C9, C10 -/

/-- C2.  On a partial bulk-insert failure whose reported write-error indices
are in range, `insert_bulk_articles` returns the inserted ids reported by the
driver together with one error entry per failed document carrying that
document's index, url and error message; and on an empty input list it
returns empty ids and empty errors whatever the driver would do. -/
theorem c2_insert_bulk_articles (articles : List GlobeArticle)
    (wes : List WriteError) (ids : List String) (hne : articles ≠ [])
    (hidx : ∀ we ∈ wes, we.index < articles.length) :
    insertBulkArticles articles (.bulkWriteError wes ids) =
      .ok (ids, wes.map (fun we =>
        ⟨some we.index, (articles[we.index]?).map (fun a => a.url),
          we.errmsg⟩)) ∧
    ∀ outcome, insertBulkArticles [] outcome = .ok ([], []) := by
  constructor
  · have hemp : articles.isEmpty = false := by
      cases articles with
      | nil => exact absurd rfl hne
      | cons a rest => rfl
    simp [insertBulkArticles, hemp, buildWriteErrorEntries_of_inRange articles wes hidx]
  · intro outcome
    rfl

/-- C2 witness: concrete instantiation of `c2_insert_bulk_articles` with two
articles where the driver reports a duplicate-key write error at index 1 and
one inserted id. -/
theorem c2_insert_bulk_articles_witness :
    insertBulkArticles
        [{ title := "A", url := "https://example.com/a", description := "da",
           date_published := 0, provider := "P", language := "en",
           content := "ca" },
         { title := "B", url := "https://example.com/b", description := "db",
           date_published := 0, provider := "P", language := "en",
           content := "cb" }]
        (.bulkWriteError [⟨1, "Duplicate key"⟩] ["id0"]) =
      .ok (["id0"], [⟨some 1, some "https://example.com/b", "Duplicate key"⟩]) ∧
    insertBulkArticles [] (.bulkWriteError [⟨1, "Duplicate key"⟩] ["id0"]) =
      .ok ([], []) := by
  have h := c2_insert_bulk_articles
    [{ title := "A", url := "https://example.com/a", description := "da",
       date_published := 0, provider := "P", language := "en",
       content := "ca" },
     { title := "B", url := "https://example.com/b", description := "db",
       date_published := 0, provider := "P", language := "en",
       content := "cb" }]
    [⟨1, "Duplicate key"⟩] ["id0"] (by decide) (by decide)
  exact ⟨h.1, h.2 (.bulkWriteError [⟨1, "Duplicate key"⟩] ["id0"])⟩

/-- C5, counterexample.  `sanitize` deletes the blocked patterns before it
strips HTML tags, so tag stripping can splice a `$` onto a following word:
`sanitize("$<b>abc") = "$abc"`, whose suffix `$abc` matches the blocked
MongoDB-operator pattern — so the output of `sanitize` can contain a
blocked-pattern match. -/
theorem c5_counterexample :
    sanitize "$<b>abc".toList = "$abc".toList ∧
    searchDollar (sanitize "$<b>abc".toList) = true := by
  refine ⟨by decide, by decide⟩

/-- C5, amended.  For inputs NFKC fixes (in particular pure-ASCII inputs),
the output of `sanitize` contains no match of the script, iframe or
quoted-substring blocked patterns and no `<...>` HTML tag (every `<`, `>`,
quote and apostrophe is HTML-escaped), and it equals its own NFKC
normalization; but a match of the `$`-operator pattern can survive (see the
counterexample), and for non-ASCII inputs the final NFKC step can
reintroduce quotes, tags and scripts from fullwidth compatibility
characters. -/
theorem c5_sanitize_ascii (l : List Char) (h : ∀ c ∈ l, c.toNat < 128) :
    searchBlockTag scriptName (sanitize l) = false ∧
    searchBlockTag iframeName (sanitize l) = false ∧
    searchQuote '\'' (sanitize l) = false ∧
    searchQuote '"' (sanitize l) = false ∧
    searchTag (sanitize l) = false ∧
    nfkcNormalize (sanitize l) = sanitize l := by
  have hmidA : ∀ c ∈ collapseNewlines (normalizeCR (subTags (subDollar
      (subQuote '"' (subQuote '\'' (subBlockTag iframeName
        (subBlockTag scriptName l))))))), c.toNat < 128 := by
    intro c hc
    have h1 := collapseNewlinesF_subset _ _ c hc
    rcases normalizeCRF_mem _ _ c h1 with h2 | h2
    · have h3 := subTagsF_subset _ _ c h2
      have h4 := subDollarF_subset _ _ c h3
      have h5 := subQuoteF_subset '"' _ _ _ c h4
      have h6 := subQuoteF_subset '\'' _ _ _ c h5
      have h7 := subBlockTagF_subset iframeName _ _ c h6
      have h8 := subBlockTagF_subset scriptName _ _ c h7
      exact h c h8
    · subst h2; decide
  have hid : nfkcNormalize (htmlEscape (collapseNewlines (normalizeCR (subTags
      (subDollar (subQuote '"' (subQuote '\'' (subBlockTag iframeName
        (subBlockTag scriptName l))))))))) =
      htmlEscape (collapseNewlines (normalizeCR (subTags (subDollar
        (subQuote '"' (subQuote '\'' (subBlockTag iframeName
          (subBlockTag scriptName l)))))))) :=
    nfkcNormalize_ascii_id _ (htmlEscape_ascii _ hmidA)
  have hsan : sanitize l = htmlEscape (collapseNewlines (normalizeCR (subTags
      (subDollar (subQuote '"' (subQuote '\'' (subBlockTag iframeName
        (subBlockTag scriptName l)))))))) := by
    rw [sanitize]; exact hid
  have hnb : ∀ c ∈ sanitize l, c ≠ '<' ∧ c ≠ '>' ∧ c ≠ '"' ∧ c ≠ '\'' := by
    rw [hsan]; exact htmlEscape_no_bad _
  refine ⟨?_, ?_, ?_, ?_, ?_, ?_⟩
  · exact searchBlockTag_false _ _ (fun hm => ((hnb '<' hm).1 rfl))
  · exact searchBlockTag_false _ _ (fun hm => ((hnb '<' hm).1 rfl))
  · exact searchQuote_false _ _ (fun hm => ((hnb '\'' hm).2.2.2 rfl))
  · exact searchQuote_false _ _ (fun hm => ((hnb '"' hm).2.2.1 rfl))
  · exact searchTag_false _ (fun hm => ((hnb '<' hm).1 rfl))
  · rw [hsan]; exact hid

/-- C5 witness: concrete instantiation of `c5_sanitize_ascii` on an ASCII
input containing a quote, a tag and a newline run. -/
theorem c5_sanitize_ascii_witness :
    (∀ c ∈ "a'b<i>c\n\nd".toList, c.toNat < 128) ∧
    searchTag (sanitize "a'b<i>c\n\nd".toList) = false ∧
    nfkcNormalize (sanitize "a'b<i>c\n\nd".toList) =
      sanitize "a'b<i>c\n\nd".toList := by
  refine ⟨by decide, ?_, ?_⟩
  · exact (c5_sanitize_ascii "a'b<i>c\n\nd".toList (by decide)).2.2.2.2.1
  · exact (c5_sanitize_ascii "a'b<i>c\n\nd".toList (by decide)).2.2.2.2.2

/-- C4, counterexample.  With no custom fetcher registered for
`example.com`, a 403 basic attempt, a 403 postman attempt and a 200
Playwright attempt, the claim expects the failures to be recorded as
`basic_request:403` and `postman_request:403`; the code records nothing for
the failed stages — the only event is `playwright_request:200`. -/
theorem c4_counterexample :
    fetchContent "example.com"
        ⟨(0, ""), (403, ""), (403, ""), (200, "<html></html>")⟩ =
      (some "<html></html>", [("playwright_request", 200)]) ∧
    ("basic_request", (403 : Int)) ∉
      (fetchContent "example.com"
        ⟨(0, ""), (403, ""), (403, ""), (200, "<html></html>")⟩).2 ∧
    ("postman_request", (403 : Int)) ∉
      (fetchContent "example.com"
        ⟨(0, ""), (403, ""), (403, ""), (200, "<html></html>")⟩).2 := by
  refine ⟨by decide, by decide, by decide⟩

/-- C4, amended.  For a url with no registered custom fetcher the chain stops
at the first stage returning 200 and records a single event: the succeeding
stage's method key with status 200.  Failed basic and postman attempts are
not recorded under their own keys; when every stage fails the single event
`all_methods_failed` carries the last (Playwright) status. -/
theorem c4_stage_recording (domain : String) (o : FetchOutcomes)
    (hd : domain ∉ domainFetcherDomains) :
    (o.basic.1 = 200 →
      fetchContent domain o = (some o.basic.2, [("basic_request", 200)])) ∧
    (o.basic.1 ≠ 200 → o.postman.1 = 200 →
      fetchContent domain o = (some o.postman.2, [("postman_request", 200)])) ∧
    (o.basic.1 ≠ 200 → o.postman.1 ≠ 200 → o.playwright.1 = 200 →
      fetchContent domain o =
        (some o.playwright.2, [("playwright_request", 200)])) ∧
    (o.basic.1 ≠ 200 → o.postman.1 ≠ 200 → o.playwright.1 ≠ 200 →
      fetchContent domain o =
        (none, [("all_methods_failed", o.playwright.1)])) := by
  refine ⟨fun h1 => ?_, fun h1 h2 => ?_, fun h1 h2 h3 => ?_, fun h1 h2 h3 => ?_⟩ <;>
    simp [fetchContent, hd, h1, *]

/-- C4 witness: concrete instantiation of `c4_stage_recording` at a domain
with no custom fetcher, with a failing basic stage and a succeeding postman
stage. -/
theorem c4_stage_recording_witness :
    "news.example.org" ∉ domainFetcherDomains ∧
    fetchContent "news.example.org" ⟨(0, ""), (403, ""), (200, "body"), (0, "")⟩ =
      (some "body", [("postman_request", 200)]) := by
  refine ⟨by decide, ?_⟩
  exact (c4_stage_recording "news.example.org"
      ⟨(0, ""), (403, ""), (200, "body"), (0, "")⟩ (by decide)).2.1
    (by decide) (by decide)

/-- C9, counterexample.  The claim says a timeout produces status 408; the
code's `except Exception` catches the Playwright timeout too and returns
status 500. -/
theorem c9_counterexample :
    (fetchMsnCom .timeoutError).status = 500 ∧
    ¬ (fetchMsnCom .timeoutError).status = 408 := by
  refine ⟨rfl, by decide⟩

/-- C9, amended.  The msn.com custom fetcher returns status 500 — not 408 —
when the browser run times out, and status 500 on any other error; in both
failure cases the body is empty and the browser context and browser are
closed before returning. -/
theorem c9_msn_failure_semantics (msg : String) :
    fetchMsnCom .timeoutError = ⟨500, "", true, true⟩ ∧
    fetchMsnCom (.otherError msg) = ⟨500, "", true, true⟩ := by
  exact ⟨rfl, rfl⟩

/-- C7.  Evaluation at the failing input: for an empty discovery batch the
statistics computation raises `ZeroDivisionError` (the spec instead calls for
`build_success_rate = 0` when nothing was discovered), so the pipeline's
per-market statistics logging fails on an empty batch and the exception is
only caught by `run_pipeline`'s per-market handler. -/
theorem c7_stats_zero_discovered_raises :
    logCountryProcessingStats [] [] [] =
      .error "ZeroDivisionError: division by zero" := by
  rfl

/-- C10, counterexample.  In the reachable state where one method has
recorded only a non-200 outcome (`track_request("basic_request", 403)` on a
fresh tracker), `get_total_requests` raises `KeyError` instead of returning
`(0, 1)`. -/
theorem c10_counterexample :
    getTotalRequests (trackerFromEvents [("basic_request", 403)]) =
      .error "KeyError: 200" := by
  rfl

/-- C10, amended.  For every reachable `RequestTracker` state in which every
tracked method has recorded at least one status-200 outcome,
`get_total_requests` returns the pair (number of status-200 events, number of
non-200 events); in states where some tracked method has recorded only
non-200 outcomes it raises `KeyError` instead (see the counterexample). -/
theorem c10_get_total_requests (events : List (String × Int))
    (h : ∀ p ∈ trackerFromEvents events, lookupStatus p.2 200 ≠ none) :
    getTotalRequests (trackerFromEvents events) =
      .ok (eventSuccesses events, eventFailures events) := by
  rw [getTotalRequests_of_all200 _ h, trackerSuccesses_fromEvents,
    trackerFailures_fromEvents]

/-- C10 witness: concrete instantiation of `c10_get_total_requests` on the
event sequence basic:200, basic:404, postman:200. -/
theorem c10_get_total_requests_witness :
    (∀ p ∈ trackerFromEvents
        [("basic_request", 200), ("basic_request", 404), ("postman_request", 200)],
      lookupStatus p.2 200 ≠ none) ∧
    getTotalRequests (trackerFromEvents
        [("basic_request", 200), ("basic_request", 404), ("postman_request", 200)]) =
      .ok (2, 1) := by
  refine ⟨by decide, ?_⟩
  exact c10_get_total_requests
    [("basic_request", 200), ("basic_request", 404), ("postman_request", 200)]
    (by decide)

/-! ## Claim theorems: C1, C3, C6, C8 -/

theorem globeArticleInit_keywords (k : GlobeArticleKwargs) (a : GlobeArticle)
    (h : globeArticleInit k = .ok a) : a.keywords = k.keywords := by
  unfold globeArticleInit at h
  split at h
  · simp at h
  · split at h
    · simp at h
    · split at h
      · split at h
        · simp at h
        · rw [Except.ok.injEq] at h
          subst h
          rfl
      · rw [Except.ok.injEq] at h
        subst h
        rfl

/-- C1.  Evaluation at an input on which every stage succeeds: fetching
returns HTML, extraction succeeds, the sanitized body passes validation and
the composition call succeeds (first conjunct) — yet `build` does not return
the article: its success-path telemetry call
`article_counter.track_scrape_attempt(...)` names a method that does not
exist on `ArticleCounter` (which defines `track_build_attempt`), so `build`
raises `AttributeError`.  No `Article` is ever returned by `build`, and the
composed model also has no `origin_country` or `post_processed` field (the
extra keyword arguments are ignored). -/
theorem c1_build_happy_path_raises :
    (createGlobeArticle
        { cleaned_text := "Solar panels improved", meta_lang := some "es",
          meta_keywords := "solar, energy", authors := ["A. Author"] }
        { title := "T", url := "https://example.com/t", description := "D",
          date_published := 5, provider := "P", origin_country := "DE",
          language := some "de", source_api := "BingNewsSource" }
        0).map (fun a => a.content) = Except.ok "Solar panels improved" ∧
    build
      { title := "T", url := "https://example.com/t", description := "D",
        date_published := 5, provider := "P", origin_country := "DE",
        language := some "de", source_api := "BingNewsSource" }
      { fetchResult := some "<html>Solar panels improved</html>",
        extractResult := .ok
          { cleaned_text := "Solar panels improved", meta_lang := some "es",
            meta_keywords := "solar, energy", authors := ["A. Author"] },
        cfg := ⟨5, 10000⟩, now := 0 } =
      .error "AttributeError: ArticleCounter object has no attribute track_scrape_attempt" := by
  refine ⟨rfl, rfl⟩

/-- C3.  Evaluation at a recoverable failure path (fetch yields no
content): instead of incrementing the per-provider build-outcome counter and
returning `None`, `build` raises `AttributeError`, because it calls
`track_scrape_attempt` while `ArticleCounter` defines
`track_build_attempt` — the failure escapes `build` as an exception and no
counter is incremented. -/
theorem c3_build_failure_path_raises :
    build
      { title := "T", url := "https://example.com/t", description := "D",
        date_published := 5, provider := "P", origin_country := "DE",
        language := some "de", source_api := "BingNewsSource" }
      { fetchResult := none, extractResult := .error "not reached",
        cfg := ⟨100, 10000⟩, now := 0 } =
      .error "AttributeError: ArticleCounter object has no attribute track_scrape_attempt" ∧
    articleCounterCall "track_build_attempt" = .ok () := by
  refine ⟨rfl, rfl⟩

/-- C6, counterexample.  For `meta_keywords = "solar, energy"` the composed
article's `keywords` is the one-element list `["solar, energy"]`, not the
whitespace-split `["solar,", "energy"]` the claim derives. -/
theorem c6_counterexample :
    (createGlobeArticle
        { cleaned_text := "Solar panels improved",
          meta_keywords := "solar, energy" }
        { title := "T", url := "https://example.com/t", description := "D",
          date_published := 5, provider := "P", origin_country := "DE",
          language := some "en", source_api := "BingNewsSource" }
        0).map (fun a => a.keywords) = Except.ok ["solar, energy"] ∧
    specKeywords "solar, energy" = ["solar,", "energy"] ∧
    (["solar, energy"] : List String) ≠ ["solar,", "energy"] := by
  refine ⟨rfl, by decide, by decide⟩

/-- C6, amended.  For every article composed by `_create_globe_article`,
`keywords` equals the one-element list containing the raw
`ExtractedContent.meta_keywords` string verbatim (also when it is empty) —
not its whitespace-split. -/
theorem c6_keywords_are_singleton (extracted : ArticleData)
    (n : NewsSourceArticleData) (now : Int) (a : GlobeArticle)
    (h : createGlobeArticle extracted n now = .ok a) :
    a.keywords = [extracted.meta_keywords] := by
  unfold createGlobeArticle at h
  split at h
  · rename_i x heq
    rw [Except.ok.injEq] at h
    subst h
    exact globeArticleInit_keywords _ _ heq
  · simp at h

/-- C6 witness: concrete instantiation of `c6_keywords_are_singleton`. -/
theorem c6_keywords_are_singleton_witness :
    ∃ a, createGlobeArticle
        { cleaned_text := "Solar panels improved", meta_keywords := "one two" }
        { title := "T", url := "https://example.com/t", description := "D",
          date_published := 5, provider := "P", origin_country := "DE",
          language := some "en", source_api := "BingNewsSource" } 0 =
        .ok a ∧
      a.keywords = ["one two"] := by
  refine ⟨{ title := "T", url := "https://example.com/t", description := "D",
            date_published := 5, provider := "P", language := "en",
            content := "Solar panels improved", keywords := ["one two"],
            authors := some [] }, rfl, ?_⟩
  exact c6_keywords_are_singleton
    { cleaned_text := "Solar panels improved", meta_keywords := "one two" }
    { title := "T", url := "https://example.com/t", description := "D",
      date_published := 5, provider := "P", origin_country := "DE",
      language := some "en", source_api := "BingNewsSource" } 0 _ rfl

/-- C8.  With the discovery item's `language` absent and the extracted
content's `meta_lang` absent, composition does not return an Article with
`language` absent: the model's `language` field is a required `str`, so the
`GlobeArticle(...)` call fails validation and `build` would return `None`
(the claim's optional-language behavior is what the mongo schema and the
spec describe, but not what `models.py` implements). -/
theorem c8_language_none_fails :
    createGlobeArticle { cleaned_text := "Solar panels improved" }
      { title := "T", url := "https://example.com/t", description := "D",
        date_published := 5, provider := "P", origin_country := "DE",
        source_api := "BingNewsSource" } 0 =
      .error "ArticleBuilderError: Failed to create GlobeArticle object: ValidationError: language: none is not an allowed value" := by
  rfl

end GlobeScraper

